import Mathlib

/-!
# Verification of the BeyondPresence n8n node webhook-normalization core

Shallow embedding of `src/nodes/BeyondPresence/BeyondPresence.node.ts`
(the `beyondPresenceHelpers` object and the webhook branch of
`BeyondPresence.execute`), over the data shapes declared in
`src/nodes/BeyondPresence/BeyondPresenceTypes.ts`.

Modelling conventions:
* JavaScript `undefined` for an absent field is `Option.none`; the
  webhook payload structures carry every field the code reads as an
  `Option`.  Extra payload keys the code never reads (the deprecated
  `agent_id` aliases) are carried too, so independence from them is
  statable.
* JavaScript `a || b` on strings is `strOrElse`: the left value is kept
  when it is a present, non-empty string.  On numbers, `0` and `NaN`
  are falsy.
* JSON numbers in the payloads are modelled as `Int` (the fields in
  question are integer-valued counts and minutes); the result of the
  numeric coercions is `JSNum`, which adds the `NaN` value that
  JavaScript `parseInt` can produce.
* `JSON.parse` is the platform's decoder, external to this repository:
  a textual webhook input is carried together with its decode outcome
  (`Except` of an error message or a `JsValue`).
* Thrown `ApplicationError`s are `Except.error` carrying the message
  string.
-/

/-- A JavaScript number as produced by the coercion helpers: either an
integer or `NaN` (the result of `parseInt` on non-numeric text). -/
inductive JSNum where
  | nan : JSNum
  | int : Int → JSNum
deriving DecidableEq, Repr

/-- A payload field typed `number | string` in the TypeScript source. -/
inductive StrOrNum where
  | str : String → StrOrNum
  | num : Int → StrOrNum
deriving DecidableEq, Repr

/-- JavaScript `a || b` for `a : string | undefined`: keep `a` when it
is present and non-empty, else use `b`. -/
def strOrElse (a : Option String) (b : String) : String :=
  match a with
  | some s => if s = "" then b else s
  | none => b

/-- A message record inside a webhook payload (`WebhookMessage` in
`BeyondPresenceTypes.ts`); fields are optional because the payload is
untrusted at runtime. -/
structure WebhookMessage where
  sender : Option String := none
  message : Option String := none
  sent_at : Option String := none
deriving DecidableEq, Repr

/-- The `call_data` object of a webhook payload (`CallData` in
`BeyondPresenceTypes.ts`).  `agent_id` is a deprecated payload key the
code never reads; it is carried so that independence from it can be
stated. -/
structure CallData where
  userName : Option String := none
  agentId : Option String := none
  agent_id : Option String := none
  startedAt : Option String := none
  endedAt : Option String := none
deriving DecidableEq, Repr

/-- The `evaluation` object of a call-ended payload. -/
structure Evaluation where
  topic : Option String := none
  user_sentiment : Option String := none
  duration_minutes : Option StrOrNum := none
  messages_count : Option StrOrNum := none
deriving DecidableEq, Repr

/-- The fields of a webhook payload object that the node's code reads
(`BaseWebhookData` in `BeyondPresenceTypes.ts`), every one optional.
`agent_id` is a deprecated top-level key the code never reads. -/
structure BaseWebhookData where
  event_type : Option String := none
  agentId : Option String := none
  agent_id : Option String := none
  call_id : Option String := none
  call_data : Option CallData := none
  evaluation : Option Evaluation := none
  message : Option WebhookMessage := none
  messages : Option (List WebhookMessage) := none
  user_name : Option String := none
deriving DecidableEq, Repr

/-- A parsed JSON value, to the depth the webhook code inspects it:
objects are represented by their typed field view `BaseWebhookData`;
arrays, `null` and the primitives are kept as tags so that the
`typeof`/truthiness checks of `parseWebhookData` are expressible. -/
inductive JsValue where
  | null : JsValue
  | bool : Bool → JsValue
  | num : Int → JsValue
  | str : String → JsValue
  | arr : List JsValue → JsValue
  | obj : BaseWebhookData → JsValue

/-- JavaScript `typeof` on a parsed JSON value. -/
def jsTypeof : JsValue → String
  | .null => "object"
  | .bool _ => "boolean"
  | .num _ => "number"
  | .str _ => "string"
  | .arr _ => "object"
  | .obj _ => "object"

/-- JavaScript truthiness of a parsed JSON value. -/
def jsTruthy : JsValue → Bool
  | .null => false
  | .bool b => b
  | .num n => n != 0
  | .str s => s != ""
  | .arr _ => true
  | .obj _ => true

/-- Property access on a parsed value, as the code performs after the
object check: an object yields its fields; on an array (which passes
the object check) every read field is `undefined`.  The primitive
cases are unreachable after `parseWebhookData`. -/
def JsValue.asData : JsValue → BaseWebhookData
  | .obj o => o
  | _ => {}

/-- Whitespace skipped by JavaScript `parseInt`. -/
def jsIsSpace (c : Char) : Bool :=
  c = ' ' || c = '\t' || c = '\n' || c = '\r' || c = '\x0b' || c = '\x0c'

/-- Digit value of a character under a radix, as `parseInt` reads
digits. -/
def digitVal (radix : Nat) (c : Char) : Option Nat :=
  let n := c.toNat
  let v : Nat :=
    if 48 ≤ n ∧ n ≤ 57 then n - 48
    else if 97 ≤ n ∧ n ≤ 122 then n - 97 + 10
    else if 65 ≤ n ∧ n ≤ 90 then n - 65 + 10
    else 99
  if v < radix then some v else none

/-- The sign read by `parseInt` from the whitespace-stripped input. -/
def signOf (l : List Char) : Int :=
  if l.head? = some '-' then -1 else 1

/-- Drop the optional leading sign character, as `parseInt` does. -/
def dropSign (l : List Char) : List Char :=
  if l.head? = some '-' || l.head? = some '+' then l.tail else l

/-- Whether the sign-stripped input begins with the `0x`/`0X` prefix
that switches `parseInt` (called without a radix) to base 16. -/
def hasHexPrefix (l : List Char) : Bool :=
  l.head? = some '0' && (l.tail.head? = some 'x' || l.tail.head? = some 'X')

/-- JavaScript `parseInt(s)` with no radix argument: skip leading
whitespace, read an optional sign, switch to base 16 after a `0x`/`0X`
prefix (base 10 otherwise), take the longest digit prefix, and return
`NaN` when no digit was read. -/
def jsParseInt (s : String) : JSNum :=
  let cs0 := s.toList.dropWhile jsIsSpace
  let cs1 := dropSign cs0
  let radix : Nat := if hasHexPrefix cs1 then 16 else 10
  let cs2 := if hasHexPrefix cs1 then cs1.tail.tail else cs1
  let ds := cs2.takeWhile (fun c => (digitVal radix c).isSome)
  if ds.isEmpty then .nan
  else .int (signOf cs0 * (ds.foldl (fun a c => radix * a + (digitVal radix c).getD 0) 0 : Nat))

/-- Model of `beyondPresenceHelpers.getAgentId`:
`data.call_data?.agentId || data.agentId || ''`. -/
def getAgentId (data : BaseWebhookData) : String :=
  strOrElse (data.call_data.bind CallData.agentId) (strOrElse data.agentId "")

/-- Model of `beyondPresenceHelpers.parseDurationMinutes`: a string is fed to
`parseInt`; otherwise `duration || 0` (so an absent value, and the
falsy number `0`, give `0`). -/
def parseDurationMinutes (duration : Option StrOrNum) : JSNum :=
  match duration with
  | some (.str s) => jsParseInt s
  | some (.num n) => if n = 0 then .int 0 else .int n
  | none => .int 0

/-- Model of `beyondPresenceHelpers.parseMessageCount`: a string is fed to
`parseInt`; otherwise `count || (messages?.length || 0)` (an absent
count, and the falsy number `0`, fall back to the messages length). -/
def parseMessageCount (count : Option StrOrNum)
    (messages : Option (List WebhookMessage)) : JSNum :=
  match count with
  | some (.str s) => jsParseInt s
  | some (.num n) =>
    if n = 0 then .int ((messages.map List.length).getD 0) else .int n
  | none => .int ((messages.map List.length).getD 0)

/-- A textual webhook input is carried with the outcome of decoding it
with the platform's `JSON.parse`; a structured input is a `JsValue`. -/
inductive RawWebhookInput where
  | text : String → Except String JsValue → RawWebhookInput
  | value : JsValue → RawWebhookInput

/-- JavaScript truthiness of the raw `webhookData` parameter, used by
the `if (!webhookDataRaw)` guard in `execute`. -/
def rawTruthy : RawWebhookInput → Bool
  | .text s _ => s != ""
  | .value v => jsTruthy v

/-- Model of the inner `try` block of `beyondPresenceHelpers.parseWebhookData`: decode
a textual input (a decode failure throws `Invalid webhook JSON: …`),
then require a truthy value of `typeof` "object" (else throw
`Invalid webhook data: Must be a valid object`). -/
def parseWebhookDataInner (raw : RawWebhookInput) : Except String JsValue :=
  let check : JsValue → Except String JsValue := fun v =>
    if !(jsTruthy v) || jsTypeof v != "object" then
      .error "Invalid webhook data: Must be a valid object"
    else .ok v
  match raw with
  | .text _ dec =>
    match dec with
    | .error m => .error ("Invalid webhook JSON: " ++ m)
    | .ok v => check v
  | .value v => check v

/-- Model of `beyondPresenceHelpers.parseWebhookData`: the outer `catch` block
re-wraps every thrown message as `Invalid webhook data: …`. -/
def parseWebhookData (raw : RawWebhookInput) : Except String JsValue :=
  match parseWebhookDataInner raw with
  | .error m => .error ("Invalid webhook data: " ++ m)
  | .ok v => .ok v

/-- The `call_details` object built by `processCallEndedEvent`. -/
structure CallDetails where
  duration_minutes : JSNum
  message_count : JSNum
  topic : String
  user_sentiment : String
deriving DecidableEq, Repr

/-- The `call_summary` object built by `processCallEndedEvent`.
`first_message`/`last_message` copy the raw `message` field of the
first/last list element (which the untrusted payload may omit), and
are the string `""` when the list is absent or empty. -/
structure CallSummary where
  duration_minutes : JSNum
  message_count : JSNum
  first_message : Option String
  last_message : Option String
  user_sentiment : String
deriving DecidableEq, Repr

/-- An element of the normalized `messages` output list. -/
structure ProcessedMessage where
  sender : String
  message : String
  timestamp : String
deriving DecidableEq, Repr

/-- The `user` object of the normalized outputs. -/
structure UserInfo where
  name : String
deriving DecidableEq, Repr

/-- The record built by `processCallEndedEvent`; its fields are exactly
the keys of the object literal in the source. -/
structure NormalizedCallEnded where
  call_id : String
  agent_id : String
  call_details : CallDetails
  user : UserInfo
  call_summary : CallSummary
  messages : List ProcessedMessage
  event_type : String
deriving DecidableEq, Repr

/-- The `message` object of the normalized message output. -/
structure MessageOut where
  sender : String
  content : String
  timestamp : String
deriving DecidableEq, Repr

/-- The record built by `processMessageEvent`; its fields are exactly
the keys of the object literal in the source. -/
structure NormalizedMessage where
  call_id : String
  agent_id : String
  user : UserInfo
  message : MessageOut
  event_type : String
deriving DecidableEq, Repr

/-- The minimal record emitted for an unrecognized `event_type`. -/
structure MinimalRecord where
  event_type : String
  call_id : String
  agent_id : String
deriving DecidableEq, Repr

/-- The three normalized output shapes. -/
inductive ProcessedData where
  | callEnded : NormalizedCallEnded → ProcessedData
  | message : NormalizedMessage → ProcessedData
  | minimal : MinimalRecord → ProcessedData
deriving DecidableEq, Repr

/-- Model of `beyondPresenceHelpers.processCallEndedEvent`, field for field from
the object literal in the source. -/
def processCallEndedEvent (e : BaseWebhookData) : NormalizedCallEnded :=
  let durationMinutes := parseDurationMinutes (e.evaluation.bind Evaluation.duration_minutes)
  let messageCount := parseMessageCount (e.evaluation.bind Evaluation.messages_count) e.messages
  { call_id := strOrElse e.call_id ""
    agent_id := getAgentId e
    call_details :=
      { duration_minutes := durationMinutes
        message_count := messageCount
        topic := strOrElse (e.evaluation.bind Evaluation.topic) "Unknown"
        user_sentiment := strOrElse (e.evaluation.bind Evaluation.user_sentiment) "Unknown" }
    user :=
      { name := strOrElse e.user_name
          (strOrElse (e.call_data.bind CallData.userName) "Unknown") }
    call_summary :=
      { duration_minutes := durationMinutes
        message_count := messageCount
        first_message :=
          match e.messages with
          | some (m :: _) => m.message
          | _ => some ""
        last_message :=
          match e.messages with
          | some (m :: rest) => (List.getLast (m :: rest) (List.cons_ne_nil m rest)).message
          | _ => some ""
        user_sentiment := strOrElse (e.evaluation.bind Evaluation.user_sentiment) "Unknown" }
    messages :=
      (e.messages.getD []).map (fun msg =>
        { sender := strOrElse msg.sender ""
          message := strOrElse msg.message ""
          timestamp := strOrElse msg.sent_at "" })
    event_type := "call_ended" }

/-- Model of `beyondPresenceHelpers.processMessageEvent`, field for field from
the object literal in the source. -/
def processMessageEvent (e : BaseWebhookData) : NormalizedMessage :=
  { call_id := strOrElse e.call_id ""
    agent_id := getAgentId e
    user := { name := strOrElse (e.call_data.bind CallData.userName) "Unknown" }
    message :=
      { sender := strOrElse (e.message.bind WebhookMessage.sender) ""
        content := strOrElse (e.message.bind WebhookMessage.message) ""
        timestamp := strOrElse (e.message.bind WebhookMessage.sent_at) "" }
    event_type := "message" }

/-- The dispatch on `event_type` shared by `BeyondPresence.execute`
(lines 1837-1847) and `BeyondPresence.webhook`: `call_ended` and
`message` go to their processors, anything else to the minimal
record. -/
def classifyAndNormalize (v : JsValue) : ProcessedData :=
  let data := v.asData
  if data.event_type = some "call_ended" then
    .callEnded (processCallEndedEvent data)
  else if data.event_type = some "message" then
    .message (processMessageEvent data)
  else
    .minimal
      { event_type := strOrElse data.event_type "unknown"
        call_id := strOrElse data.call_id ""
        agent_id := getAgentId data }

/-- The node parameters read by the webhook branch of
`BeyondPresence.execute` (`operation`, `eventType`, `filterByAgentIds`,
`agentIds`), fixed for a batch. -/
structure NodeConfig where
  operation : String
  eventType : String
  filterByAgentIds : Bool
  agentIds : String
deriving DecidableEq, Repr

/-- The body of the `handleEvent` branch of `BeyondPresence.execute`
for one item (lines 1803-1852): validate the agent-ID filter
configuration, reject a falsy `webhookData` parameter, parse, apply
the event-type filter then the agent-ID filter (`.ok none` models
`continue`, a silent skip), and normalize.  A thrown
`ApplicationError` is `.error` with its message. -/
def handleEvent (cfg : NodeConfig) (raw : RawWebhookInput) :
    Except String (Option ProcessedData) := do
  let agentIds : List String ←
    if cfg.filterByAgentIds then
      if cfg.agentIds = "" || cfg.agentIds.trim = "" then
        Except.error "Agent IDs required when filtering is enabled"
      else
        Except.ok ((cfg.agentIds.splitOn ",").map String.trim)
    else
      Except.ok []
  if !(rawTruthy raw) then
    Except.error "Missing webhook data"
  else do
    let webhookData ← parseWebhookData raw
    if cfg.eventType ≠ "all" ∧ webhookData.asData.event_type ≠ some cfg.eventType then
      Except.ok none
    else
      let extractedAgentId := getAgentId webhookData.asData
      if cfg.filterByAgentIds ∧ agentIds.length > 0 ∧
          (extractedAgentId = "" ∨ extractedAgentId ∉ agentIds) then
        Except.ok none
      else
        Except.ok (some (classifyAndNormalize webhookData))

/-- The `json` part of an output item: a normalized record, a
passthrough of the input item (non-`handleEvent` operations), or an
`{error: message}` record added by the `continueOnFail` handler. -/
inductive OutputJson where
  | data : ProcessedData → OutputJson
  | passthrough : RawWebhookInput → OutputJson
  | error : String → OutputJson

/-- One element of `returnItems`: the `json` payload and the optional
`pairedItem` position. -/
structure OutputItem where
  json : OutputJson
  pairedItem : Option Nat

/-- Processing of one item inside the webhook loop, before the
`catch`: the `handleEvent` operation runs `handleEvent`; any other
operation pushes the item through unchanged. -/
def processItem (cfg : NodeConfig) (raw : RawWebhookInput) :
    Except String (Option OutputJson) :=
  if cfg.operation = "handleEvent" then
    (handleEvent cfg raw).map (fun r => r.map OutputJson.data)
  else
    Except.ok (some (.passthrough raw))

/-- The `pairedItem` attached when pushing an output: normalized records
and error records carry the originating position; a passthrough item
is pushed as-is, with no pairing added. -/
def pairOf (j : OutputJson) (i : Nat) : Option Nat :=
  match j with
  | .passthrough _ => none
  | _ => some i

/-- Whether an `Except` result is a success. -/
def isOkE {ε α : Type} : Except ε α → Bool
  | .ok _ => true
  | .error _ => false

/-- The webhook loop of `BeyondPresence.execute` (lines 1798-1870)
from item position `i` on: per item, run `processItem`; a skip adds
nothing; a success is pushed with its pairing; a thrown error becomes
an `{error: message}` record paired to the position when
`continueOnFail` is set, and otherwise aborts the batch, re-throwing. -/
def runBatch (cfg : NodeConfig) (continueOnFail : Bool) :
    Nat → List RawWebhookInput → Except String (List OutputItem)
  | _, [] => Except.ok []
  | i, raw :: rest =>
    match processItem cfg raw with
    | .error msg =>
      if continueOnFail then
        (runBatch cfg continueOnFail (i + 1) rest).map
          (fun out => ⟨.error msg, some i⟩ :: out)
      else
        Except.error msg
    | .ok none => runBatch cfg continueOnFail (i + 1) rest
    | .ok (some j) =>
      (runBatch cfg continueOnFail (i + 1) rest).map
        (fun out => ⟨j, pairOf j i⟩ :: out)

/-- The base-10 integer value of a string of decimal digits (the
spec's notion of "parses it as a base-10 integer"). -/
def decimalValue (s : String) : Nat :=
  s.toList.foldl (fun a c => 10 * a + (c.toNat - '0'.toNat)) 0

/-- A parsed JSON value that is object-like in the JavaScript sense
used by the payload parser's check: a (non-null) object or an
array. -/
def JsValue.isObjLike : JsValue → Bool
  | .arr _ => true
  | .obj _ => true
  | _ => false

/-! ## Helper lemmas -/

theorem isDigit_toNat_bounds {c : Char} (h : c.isDigit = true) :
    48 ≤ c.toNat ∧ c.toNat ≤ 57 := by
  simp [Char.isDigit, Char.toNat, UInt32.le_def, BitVec.le_def, UInt32.toNat] at h ⊢
  omega

theorem digitVal_ten_of_isDigit {c : Char} (h : c.isDigit = true) :
    digitVal 10 c = some (c.toNat - 48) := by
  obtain ⟨h1, h2⟩ := isDigit_toNat_bounds h
  have hv : c.toNat - 48 < 10 := by omega
  simp [digitVal, h1, h2, hv]

theorem isDigit_char_ne {c : Char} (h : c.isDigit = true) :
    jsIsSpace c = false ∧ c ≠ '-' ∧ c ≠ '+' ∧ c ≠ 'x' ∧ c ≠ 'X' := by
  obtain ⟨h1, h2⟩ := isDigit_toNat_bounds h
  refine ⟨?_, ?_, ?_, ?_, ?_⟩
  · cases hsp : jsIsSpace c with
    | false => rfl
    | true =>
      simp [jsIsSpace] at hsp
      rcases hsp with ((((rfl | rfl) | rfl) | rfl) | rfl) | rfl <;> exact absurd h1 (by decide)
  · rintro rfl; exact absurd h1 (by decide)
  · rintro rfl; exact absurd h1 (by decide)
  · rintro rfl; exact absurd h2 (by decide)
  · rintro rfl; exact absurd h2 (by decide)

theorem takeWhile_digits (l : List Char) (hall : ∀ c ∈ l, c.isDigit = true) :
    l.takeWhile (fun c => (digitVal 10 c).isSome) = l := by
  induction l with
  | nil => rfl
  | cons c cs ih =>
    have hc := hall c (by simp)
    rw [List.takeWhile_cons]
    simp [digitVal_ten_of_isDigit hc]
    intro d hd
    simp [digitVal_ten_of_isDigit (hall d (by simp [hd]))]

theorem foldl_digits (l : List Char) (hall : ∀ c ∈ l, c.isDigit = true) (a : Nat) :
    l.foldl (fun a c => 10 * a + (digitVal 10 c).getD 0) a =
      l.foldl (fun a c => 10 * a + (c.toNat - '0'.toNat)) a := by
  induction l generalizing a with
  | nil => rfl
  | cons c cs ih =>
    have hc := hall c (by simp)
    simp only [List.foldl_cons, digitVal_ten_of_isDigit hc]
    have h0 : '0'.toNat = 48 := by decide
    rw [h0]
    exact ih (fun d hd => hall d (by simp [hd])) _

theorem jsParseInt_digits (s : String) (c : Char) (cs : List Char)
    (hs : s.toList = c :: cs) (hall : ∀ d ∈ c :: cs, d.isDigit = true) :
    jsParseInt s = .int (decimalValue s) := by
  have hc : c.isDigit = true := hall c (by simp)
  obtain ⟨hsp, hm, hp, hx, hX⟩ := isDigit_char_ne hc
  have hdrop : (c :: cs).dropWhile jsIsSpace = c :: cs := by
    rw [List.dropWhile_cons, hsp]
    simp
  have hdsign : dropSign (c :: cs) = c :: cs := by
    simp [dropSign, hm, hp]
  have hhex : hasHexPrefix (c :: cs) = false := by
    cases cs with
    | nil => simp [hasHexPrefix]
    | cons d ds =>
      have hd := hall d (by simp)
      obtain ⟨_, _, _, hdx, hdX⟩ := isDigit_char_ne hd
      simp [hasHexPrefix, hdx, hdX]
  have htake := takeWhile_digits (c :: cs) hall
  have hfold := foldl_digits (c :: cs) hall 0
  simp only [jsParseInt, hs, hdrop, hdsign, hhex, if_false, Bool.false_eq_true, htake,
    List.isEmpty_cons, signOf]
  rw [if_neg (by simpa using hm)]
  simp only [hfold]
  rw [decimalValue, hs]
  simp

/-! ## Claims -/

/-- Claim C1, counterexample: the claim asserts that no payload
location other than `call_data.agentId` ever influences the extracted
agent ID, and that an event without a non-empty `call_data.agentId`
yields `""`.  On the event whose only agent field is the top-level
`agentId = "top"`, the code returns `"top"`, not `""`. -/
theorem c1_agent_id_counterexample :
    ({ agentId := some "top" } : BaseWebhookData).call_data = none ∧
    getAgentId { agentId := some "top" } = "top" ∧ "top" ≠ "" :=
  ⟨rfl, rfl, by decide⟩

/-- Claim C1 (amended): the agent-ID extractor returns
`call_data.agentId` when present and non-empty; otherwise it returns
the top-level `agentId` when present and non-empty; otherwise `""`.
The deprecated locations `call_data.agent_id` and top-level `agent_id`
never influence the result. -/
theorem c1_agent_id_lookup (e : BaseWebhookData) :
    (∀ s, e.call_data.bind CallData.agentId = some s → s ≠ "" → getAgentId e = s) ∧
    ((e.call_data.bind CallData.agentId = none ∨ e.call_data.bind CallData.agentId = some "") →
      ((∀ t, e.agentId = some t → t ≠ "" → getAgentId e = t) ∧
       ((e.agentId = none ∨ e.agentId = some "") → getAgentId e = ""))) ∧
    (∀ a b, getAgentId { e with agent_id := a, call_data := e.call_data.map (fun c => { c with agent_id := b }) } = getAgentId e) := by
  refine ⟨?_, ?_, ?_⟩
  · intro s hs hne
    simp [getAgentId, strOrElse, hs, hne]
  · intro hcd
    constructor
    · intro t ht htne
      rcases hcd with h | h <;> simp [getAgentId, strOrElse, h, ht, htne]
    · intro hag
      rcases hcd with h | h <;> rcases hag with h2 | h2 <;>
        simp [getAgentId, strOrElse, h, h2]
  · intro a b
    cases hcd : e.call_data <;> simp [getAgentId, strOrElse, hcd]

/-- Witness for C1's amended theorem at a concrete event carrying
`call_data.agentId = "a1"`. -/
theorem c1_agent_id_lookup_witness :
    getAgentId { call_data := some { agentId := some "a1" }, agentId := some "top" } = "a1" :=
  (c1_agent_id_lookup _).1 "a1" rfl (by decide)

/-- Claim C2: when agent-ID filtering is enabled and the supplied
`agentIds` string is empty or blank (the code's test:
`!agentIdsString || agentIdsString.trim() === ''`), processing of the
item fails with the message "Agent IDs required when filtering is
enabled", whatever the webhook input is — it is an error, not a
skip. -/
theorem c2_blank_agent_ids_error (cfg : NodeConfig) (raw : RawWebhookInput)
    (hf : cfg.filterByAgentIds = true)
    (hb : cfg.agentIds = "" ∨ cfg.agentIds.trim = "") :
    handleEvent cfg raw = .error "Agent IDs required when filtering is enabled" := by
  rcases hb with hb | hb <;>
    simp [handleEvent, hf, hb, Bind.bind, Except.bind]

/-- Witness for C2 at a concrete configuration and input. -/
theorem c2_blank_agent_ids_witness :
    handleEvent ⟨"handleEvent", "all", true, ""⟩ (.value (.obj {})) =
      .error "Agent IDs required when filtering is enabled" :=
  c2_blank_agent_ids_error _ _ rfl (Or.inl rfl)

/-- Claim C3, counterexample: the claim asserts `message_count = 0`
for a call-ended event without an `evaluation` object even when the
event carries a non-empty `messages` list, but on such an event with
two messages the code reports `message_count = 2` (the messages-length
fallback). -/
theorem c3_missing_evaluation_counterexample :
    (processCallEndedEvent { evaluation := none, messages := some [{}, {}] }).call_details.message_count = JSNum.int 2 ∧
    JSNum.int 2 ≠ JSNum.int 0 :=
  ⟨rfl, by decide⟩

/-- Claim C3 (amended): for every call-ended event without an
`evaluation` object, the normalized output has topic and sentiment
`"Unknown"` and `duration_minutes = 0` in both projections, and
`message_count` equal to the length of the `messages` list (`0` when
the list is absent). -/
theorem c3_missing_evaluation_defaults (e : BaseWebhookData) (h : e.evaluation = none) :
    (processCallEndedEvent e).call_details.topic = "Unknown" ∧
    (processCallEndedEvent e).call_details.user_sentiment = "Unknown" ∧
    (processCallEndedEvent e).call_summary.user_sentiment = "Unknown" ∧
    (processCallEndedEvent e).call_details.duration_minutes = JSNum.int 0 ∧
    (processCallEndedEvent e).call_summary.duration_minutes = JSNum.int 0 ∧
    (processCallEndedEvent e).call_details.message_count = JSNum.int ((e.messages.getD []).length) ∧
    (processCallEndedEvent e).call_summary.message_count = JSNum.int ((e.messages.getD []).length) := by
  cases hm : e.messages <;>
    simp [processCallEndedEvent, parseDurationMinutes, parseMessageCount, strOrElse, h, hm]

/-- Witness for C3's amended theorem at a concrete event with two
messages and no evaluation. -/
theorem c3_missing_evaluation_witness :
    (processCallEndedEvent { evaluation := none, messages := some [{}, { sender := some "b" }] }).call_details.topic = "Unknown" ∧
    (processCallEndedEvent { evaluation := none, messages := some [{}, { sender := some "b" }] }).call_details.message_count = JSNum.int 2 := by
  have h := c3_missing_evaluation_defaults { evaluation := none, messages := some [{}, { sender := some "b" }] } rfl
  exact ⟨h.1, h.2.2.2.2.2.1⟩

/-- Claim C4, counterexample: the claim asserts a numeric count is
returned as-is, including the number `0`; but with count `0` and a
one-element messages list the code returns `1` (JavaScript `0` is
falsy, so `count || fallback` takes the fallback). -/
theorem c4_zero_count_counterexample :
    parseMessageCount (some (.num 0)) (some [{}]) = JSNum.int 1 ∧
    JSNum.int 1 ≠ JSNum.int 0 :=
  ⟨rfl, by decide⟩

/-- Claim C4 (amended): the message-count coercion parses a textual
value with JavaScript `parseInt` (on a string of decimal digits this
is its base-10 value); a non-zero numeric value is returned as-is; the
number `0` — like an absent value — falls back to the length of the
`messages` sequence when one is present, else `0`. -/
theorem c4_message_count_coercion :
    (∀ s msgs, parseMessageCount (some (.str s)) msgs = jsParseInt s) ∧
    (∀ (s : String) (c : Char) (cs : List Char) msgs, s.toList = c :: cs →
      (∀ d ∈ c :: cs, d.isDigit = true) →
      parseMessageCount (some (.str s)) msgs = .int (decimalValue s)) ∧
    (∀ (n : Int) msgs, n ≠ 0 → parseMessageCount (some (.num n)) msgs = .int n) ∧
    (∀ ms, parseMessageCount (some (.num 0)) (some ms) = .int ms.length) ∧
    (parseMessageCount (some (.num 0)) none = .int 0) ∧
    (∀ ms, parseMessageCount none (some ms) = .int ms.length) ∧
    (parseMessageCount none none = .int 0) := by
  refine ⟨fun s msgs => rfl, ?_, ?_, fun ms => rfl, rfl, fun ms => rfl, rfl⟩
  · intro s c cs msgs hs hall
    show jsParseInt s = _
    exact jsParseInt_digits s c cs hs hall
  · intro n msgs hn
    simp [parseMessageCount, hn]

/-- Witness for C4's amended theorem: the digit string `"15"` coerces
to `15`, and the non-zero count `7` passes through. -/
theorem c4_message_count_witness :
    parseMessageCount (some (.str "15")) none = JSNum.int 15 ∧
    parseMessageCount (some (.num 7)) (some [{}, {}]) = JSNum.int 7 := by
  constructor
  · have h := c4_message_count_coercion.2.1 "15" '1' ['5'] none rfl (by decide)
    rw [h]
    decide
  · exact c4_message_count_coercion.2.2.1 7 (some [{}, {}]) (by decide)

/-- Claim C5: for every call-ended event with a non-empty `messages`
list, `call_summary.first_message` is the `message` field of the first
element and `call_summary.last_message` that of the last; with a
single-element list the two coincide. -/
theorem c5_first_last_message (e : BaseWebhookData) (m : WebhookMessage)
    (rest : List WebhookMessage) (h : e.messages = some (m :: rest)) :
    (processCallEndedEvent e).call_summary.first_message = m.message ∧
    (processCallEndedEvent e).call_summary.last_message =
      ((m :: rest).getLast (List.cons_ne_nil m rest)).message ∧
    (rest = [] → (processCallEndedEvent e).call_summary.first_message =
      (processCallEndedEvent e).call_summary.last_message) := by
  refine ⟨by simp [processCallEndedEvent, h], by simp [processCallEndedEvent, h], ?_⟩
  intro hr
  subst hr
  simp [processCallEndedEvent, h]

/-- Witness for C5 at a concrete two-message call-ended event. -/
theorem c5_first_last_message_witness :
    (processCallEndedEvent { messages := some [{ message := some "hi" }, { message := some "bye" }] }).call_summary.first_message = some "hi" ∧
    (processCallEndedEvent { messages := some [{ message := some "hi" }, { message := some "bye" }] }).call_summary.last_message = some "bye" := by
  have h := c5_first_last_message { messages := some [{ message := some "hi" }, { message := some "bye" }] } { message := some "hi" } [{ message := some "bye" }] rfl
  exact ⟨h.1, by rw [h.2.1]; rfl⟩

/-- Claim C6: normalizing the given message event produces exactly the
claimed record — `NormalizedMessage` has no fields beyond
`call_id`, `agent_id`, `user`, `message` and `event_type`. -/
theorem c6_message_event_normalization :
    classifyAndNormalize (.obj { event_type := some "message", call_id := some "c1", message := some { sender := some "user", message := some "hi", sent_at := some "t0" }, call_data := some { userName := some "Ann", agentId := some "a1" } }) =
      .message { call_id := "c1", agent_id := "a1", user := { name := "Ann" }, message := { sender := "user", content := "hi", timestamp := "t0" }, event_type := "message" } := by
  decide

/-- Claim C7: every event whose `event_type` is neither `"message"`
nor `"call_ended"` (including an absent one) normalizes to exactly the
minimal record with `event_type` the event's value or `"unknown"`,
`call_id` the event's value or `""`, and `agent_id` from
`getAgentId`. -/
theorem c7_unrecognized_minimal_record (e : BaseWebhookData)
    (h1 : e.event_type ≠ some "call_ended") (h2 : e.event_type ≠ some "message") :
    classifyAndNormalize (.obj e) = .minimal
      { event_type := strOrElse e.event_type "unknown",
        call_id := strOrElse e.call_id "",
        agent_id := getAgentId e } := by
  simp [classifyAndNormalize, JsValue.asData, h1, h2]

/-- Witness for C7: a `"ping"` event with no `call_id` and no agent
fields yields exactly the record with `call_id` and `agent_id`
empty. -/
theorem c7_unrecognized_minimal_witness :
    classifyAndNormalize (.obj { event_type := some "ping" }) =
      .minimal { event_type := "ping", call_id := "", agent_id := "" } := by
  have h := c7_unrecognized_minimal_record { event_type := some "ping" } (by simp) (by simp)
  simpa [strOrElse, getAgentId] using h

/-- Claim C9: for every call-ended event, the `call_details` and
`call_summary` projections agree on their shared fields
`duration_minutes`, `message_count` and `user_sentiment`. -/
theorem c9_projections_agree (e : BaseWebhookData) :
    (processCallEndedEvent e).call_details.duration_minutes =
      (processCallEndedEvent e).call_summary.duration_minutes ∧
    (processCallEndedEvent e).call_details.message_count =
      (processCallEndedEvent e).call_summary.message_count ∧
    (processCallEndedEvent e).call_details.user_sentiment =
      (processCallEndedEvent e).call_summary.user_sentiment :=
  ⟨rfl, rfl, rfl⟩

/-- With `continueOnFail` set, the webhook loop never aborts: it
always produces an output list. -/
theorem runBatch_tolerant_total (cfg : NodeConfig) :
    ∀ (k : Nat) (l : List RawWebhookInput), ∃ T, runBatch cfg true k l = .ok T := by
  intro k l
  induction l generalizing k with
  | nil => exact ⟨[], rfl⟩
  | cons raw rest ih =>
    obtain ⟨T, hT⟩ := ih (k + 1)
    cases hp : processItem cfg raw with
    | error msg => exact ⟨⟨.error msg, some k⟩ :: T, by simp [runBatch, hp, hT, Except.map]⟩
    | ok v =>
      cases v with
      | none => exact ⟨T, by simp [runBatch, hp, hT]⟩
      | some j => exact ⟨⟨j, pairOf j k⟩ :: T, by simp [runBatch, hp, hT, Except.map]⟩

/-- Claim C8: when the item after a prefix of error-free items raises
an error, then without fail-tolerant mode the whole batch run
surfaces that error (no later item contributes any output), and with
fail-tolerant mode the output contains an `{error: message}` record
paired to that item's position, followed by exactly the outputs of
the remaining items. -/
theorem c8_per_item_error_policy (cfg : NodeConfig) (pre rest : List RawWebhookInput)
    (x : RawWebhookInput) (msg : String)
    (hpre : ∀ y ∈ pre, isOkE (processItem cfg y) = true)
    (hx : processItem cfg x = .error msg) :
    (∀ k, runBatch cfg false k (pre ++ x :: rest) = .error msg) ∧
    (∀ k, ∃ P T,
      runBatch cfg true k (pre ++ x :: rest) =
        .ok (P ++ ⟨.error msg, some (k + pre.length)⟩ :: T) ∧
      runBatch cfg true (k + pre.length + 1) rest = .ok T) := by
  revert hpre
  induction pre with
  | nil =>
    intro hpre
    constructor
    · intro k
      simp [runBatch, hx]
    · intro k
      obtain ⟨T, hT⟩ := runBatch_tolerant_total cfg (k + 1) rest
      exact ⟨[], T, by simp [runBatch, hx, hT, Except.map], by simpa using hT⟩
  | cons y pre ih =>
    intro hpre
    have hy : isOkE (processItem cfg y) = true := hpre y (by simp)
    have hpre' : ∀ z ∈ pre, isOkE (processItem cfg z) = true :=
      fun z hz => hpre z (by simp [hz])
    obtain ⟨ihA, ihB⟩ := ih hpre'
    constructor
    · intro k
      cases hp : processItem cfg y with
      | error m => rw [hp] at hy; exact absurd hy (by simp [isOkE])
      | ok v =>
        cases v with
        | none => simpa [runBatch, hp] using ihA (k + 1)
        | some j => simp [runBatch, hp, ihA (k + 1), Except.map]
    · intro k
      obtain ⟨P, T, h1, h2⟩ := ihB (k + 1)
      have harith : k + 1 + pre.length = k + (pre.length + 1) := by omega
      rw [harith] at h1 h2
      cases hp : processItem cfg y with
      | error m => rw [hp] at hy; exact absurd hy (by simp [isOkE])
      | ok v =>
        cases v with
        | none =>
          exact ⟨P, T, by simpa [runBatch, hp] using h1, by simpa using h2⟩
        | some j =>
          refine ⟨⟨j, pairOf j k⟩ :: P, T, ?_, by simpa using h2⟩
          simp [runBatch, hp, h1, Except.map]

/-- Witness for C8 on a concrete two-item batch whose second item has
an undecodable payload: strict mode surfaces the error, tolerant mode
emits the error record at position 1. -/
theorem c8_per_item_error_witness :
    runBatch ⟨"handleEvent", "all", false, ""⟩ false 0
      [.value (.obj {}), .text "oops" (.error "boom")] =
        .error "Invalid webhook data: Invalid webhook JSON: boom" ∧
    ∃ P T, runBatch ⟨"handleEvent", "all", false, ""⟩ true 0
      [.value (.obj {}), .text "oops" (.error "boom")] =
        .ok (P ++ ⟨.error "Invalid webhook data: Invalid webhook JSON: boom", some 1⟩ :: T) ∧
      runBatch ⟨"handleEvent", "all", false, ""⟩ true 2 [] = .ok T := by
  have h := c8_per_item_error_policy ⟨"handleEvent", "all", false, ""⟩ [.value (.obj {})] []
    (.text "oops" (.error "boom")) "Invalid webhook data: Invalid webhook JSON: boom"
    (by intro y hy; simp at hy; subst hy; rfl) rfl
  exact ⟨h.1 0, h.2 0⟩

/-- Claim C10: the payload parser accepts any decoded array (returning
it unchanged), normalization routes an array to the
unrecognized-event branch, and the parser errors exactly on textual
inputs whose decode fails and on decoded values that are not
object-like (`null` and the primitives). -/
theorem c10_parser_accepts_arrays :
    (∀ s xs, parseWebhookData (.text s (.ok (.arr xs))) = .ok (.arr xs)) ∧
    (∀ xs, parseWebhookData (.value (.arr xs)) = .ok (.arr xs)) ∧
    (∀ xs, classifyAndNormalize (.arr xs) =
      .minimal { event_type := "unknown", call_id := "", agent_id := "" }) ∧
    (∀ s v, isOkE (parseWebhookData (.text s (.ok v))) = v.isObjLike) ∧
    (∀ v, isOkE (parseWebhookData (.value v)) = v.isObjLike) ∧
    (∀ s m, ∃ m2, parseWebhookData (.text s (.error m)) = .error m2) := by
  refine ⟨fun s xs => rfl, fun xs => rfl, fun xs => rfl, ?_, ?_, fun s m => ⟨_, rfl⟩⟩
  · intro s v
    cases v <;>
      simp [parseWebhookData, parseWebhookDataInner, jsTruthy, jsTypeof, isOkE, JsValue.isObjLike]
  · intro v
    cases v <;>
      simp [parseWebhookData, parseWebhookDataInner, jsTruthy, jsTypeof, isOkE, JsValue.isObjLike]
